import Mathlib

/-! # Verification of the GeoGebra optimizer coordination layer

Shallow embedding of `src/packages/geogebra-optimizer/python/optimizer.py`.
Real numbers are modelled by ℚ; a Python exception is modelled by `Option`
(`none` = crash); the module-level globals `_current_objective`,
`_current_constraints` and `cfun` are gathered in an explicit `PyState`
record threaded through the functions. The external `cma` library
(`ConstrainedFitnessAL`, `CMAEvolutionStrategy`) is not part of the
repository; the parts of its behaviour the claims depend on are modelled
from the spec and marked as such in their doc comments.
-/


namespace GeogebraOptimizer

/-- One entry of the `evaluations` argument of `evaluate_batch`:
a dictionary with keys `solution`, `objective` and `alConstraints`. -/
structure EvalRecord where
  solution : List ℚ
  objective : ℚ
  alConstraints : List ℚ
deriving DecidableEq

/-- The `ConstrainedFitnessAL` instance held in the module global `cfun`.
Fields `lambda_` and `mu` are the Lagrange multipliers and the penalty
factor of the AL state (read by `get_cmaes_metrics` as `cfun.lambda_` and
`cfun.mu`); `G` is the log of constraint evaluations (read as `cfun.G[-1]`;
one entry is appended per call of the instance). -/
structure ALHandler where
  lambda_ : List ℚ
  mu : ℚ
  G : List (List ℚ)
deriving DecidableEq

/-- The module-level mutable globals of `optimizer.py`:
`_current_objective` (None before first use), `_current_constraints`
(initially the empty list) and `cfun` (None in unconstrained mode). -/
structure PyState where
  current_objective : Option ℚ
  current_constraints : List ℚ
  cfun : Option ALHandler
deriving DecidableEq

/-- Python `objective_wrapper(x)` from `initialize_optimizer`: returns the
stored objective global, ignoring its argument `x`. -/
def objective_wrapper (s : PyState) (x : List ℚ) : Option ℚ :=
  s.current_objective

/-- Python `constraints_wrapper(x)` from `initialize_optimizer`: returns the
stored constraints global, ignoring its argument `x`. -/
def constraints_wrapper (s : PyState) (x : List ℚ) : List ℚ :=
  s.current_constraints

/-- Modelled from the spec: the augmented-Lagrangian merit function computed
by the external `cma.ConstrainedFitnessAL.__call__` (library code, not under
`src/`), per spec §4.2:
`fitness = objective + Σ_i [ multiplier_i · g_i + 0.5 · penaltyFactor · max(0, g_i)² ]`. -/
def alMerit (lam : List ℚ) (mu : ℚ) (obj : ℚ) (g : List ℚ) : ℚ :=
  obj + ((List.zip lam g).map (fun p => p.1 * p.2 + 1/2 * mu * (max 0 p.2)^2)).sum

/-- One call `cfun(x)` of the `ConstrainedFitnessAL` instance: it obtains the
objective and the constraints through the two wrappers (which read the
globals and ignore `x`), returns the AL merit value and logs the constraint
evaluation in `G`. `none` models the Python TypeError raised when the
objective global is still None. -/
def cfunCall (s : PyState) (h : ALHandler) (x : List ℚ) : Option (ℚ × ALHandler) :=
  match objective_wrapper s x with
  | none => none
  | some obj =>
    some (alMerit h.lambda_ h.mu obj (constraints_wrapper s x),
      { h with G := h.G ++ [constraints_wrapper s x] })

/-- Python `is_feasible(cfun)`: False when there is no constraint-evaluation
log (`cfun` is None, so `hasattr(cfun, 'G')` fails, or `cfun.G` is empty),
else True iff every component of the last logged constraint vector is ≤ 0. -/
def is_feasible (cfun : Option ALHandler) : Bool :=
  match cfun with
  | none => false
  | some h =>
    match h.G.getLast? with
    | none => false
    | some last_constraints => last_constraints.all (fun g => decide (g ≤ 0))

/-- Python `max(l)` on a non-empty list (callers guard the empty case). -/
def listMax : List ℚ → ℚ
  | [] => 0
  | x :: xs => xs.foldl max x

/-- The metrics dictionary produced by `get_cmaes_metrics`. -/
structure CmaesMetrics where
  lambda_ : List ℚ
  mu : ℚ
  alFitness : ℚ
  alPenalty : ℚ
  hardViolation : ℚ
  meanViolation : ℚ
  isFeasible : Bool
  constraints : List ℚ
deriving DecidableEq

/-- Python `get_cmaes_metrics(cfun, last_solution)`. Returns `some none` for
the JSON null answer (no constraint evaluation logged yet), `none` for a
crash (the fresh `cfun(last_solution)` call or the `al_penalty` subtraction
with the objective global unset), and otherwise the metrics dictionary
together with the handler as mutated by the fresh call. -/
def get_cmaes_metrics (s : PyState) (h : ALHandler) (last_solution : List ℚ) :
    Option (Option (CmaesMetrics × ALHandler)) :=
  match h.G.getLast? with
  | none => some none
  | some last_constraints =>
    match cfunCall s h last_solution with
    | none => none
    | some (true_al_fitness, h2) =>
      match s.current_objective with
      | none => none
      | some obj =>
        let violations := last_constraints.map (fun g => max 0 g)
        let m : CmaesMetrics :=
          { lambda_ := h.lambda_
            mu := h.mu
            alFitness := true_al_fitness
            alPenalty := true_al_fitness - obj
            hardViolation := if violations = [] then 0 else listMax violations
            meanViolation :=
              if violations = [] then 0 else violations.sum / (violations.length : ℚ)
            isFeasible := last_constraints.all (fun g => decide (g ≤ 0))
            constraints := last_constraints }
        some (some (m, h2))

/-- The result dictionary of `evaluate_batch`. -/
structure BatchResult where
  fitnesses : List ℚ
  feasibilities : List Bool
  cmaesMetrics : Option CmaesMetrics
deriving DecidableEq

/-- The `for eval_data in evaluations` loop of `evaluate_batch`: for each
record, in input order, it sets the globals from the record, scores it (the
objective directly when `cfun` is None, else through the
`ConstrainedFitnessAL` call followed by `is_feasible`), and accumulates the
fitnesses, the feasibilities and the last processed solution. -/
def eval_loop : PyState → List EvalRecord →
    Option (PyState × List ℚ × List Bool × Option (List ℚ))
  | s, [] => some (s, [], [], none)
  | s, r :: rest =>
    let s1 : PyState :=
      { s with current_objective := some r.objective,
               current_constraints := r.alConstraints }
    match s1.cfun with
    | none =>
      match eval_loop s1 rest with
      | none => none
      | some (s2, fits, feas, last) =>
        some (s2, r.objective :: fits, true :: feas, some (last.getD r.solution))
    | some hd =>
      match cfunCall s1 hd r.solution with
      | none => none
      | some (fit, hd2) =>
        match eval_loop { s1 with cfun := some hd2 } rest with
        | none => none
        | some (s3, fits, feas, last) =>
          some (s3, fit :: fits, is_feasible (some hd2) :: feas,
            some (last.getD r.solution))

/-- Python `evaluate_batch(evaluations)`: runs the evaluation loop, then —
only when the batch was non-empty and `cfun` is not None — computes the
exact metrics from the last evaluation (`json.loads` of the
`get_cmaes_metrics` answer, None for its JSON null). Returns the final
global state together with the result dictionary. -/
def evaluate_batch (s : PyState) (evals : List EvalRecord) :
    Option (PyState × BatchResult) :=
  match eval_loop s evals with
  | none => none
  | some (s1, fits, feas, lastSol) =>
    match lastSol, s1.cfun with
    | some sol, some h =>
      match get_cmaes_metrics s1 h sol with
      | none => none
      | some none =>
        some (s1, { fitnesses := fits, feasibilities := feas, cmaesMetrics := none })
      | some (some (m, h2)) =>
        some ({ s1 with cfun := some h2 },
          { fitnesses := fits, feasibilities := feas, cmaesMetrics := some m })
    | _, _ =>
      some (s1, { fitnesses := fits, feasibilities := feas, cmaesMetrics := none })

/-- Modelled from the spec: the multiplier update performed by the external
`cfun.update(es)` call inside `tell_results` (cma library code, not under
`src/`), per spec §4.2:
`multiplier_i ← max(0, multiplier_i + penaltyFactor · g_i_best)` using the
best-ranked member's violation `g_best`. -/
def update_multipliers (h : ALHandler) (g_best : List ℚ) : ALHandler :=
  { h with lambda_ := (List.zip h.lambda_ g_best).map (fun p => max 0 (p.1 + h.mu * p.2)) }

/-- Python `tell_results(es, solutions, fitnesses, cfun)`: feeds the results
to the evolution strategy (opaque here) and, only when `cfun` is not None,
applies the AL coefficient update exactly once; always returns the string
"ok". `g_best` abstracts the best-ranked violation the library extracts
from `es`. -/
def tell_results (cfun : Option ALHandler) (g_best : List ℚ) :
    Option ALHandler × String :=
  match cfun with
  | none => (none, "ok")
  | some h => (some (update_multipliers h g_best), "ok")

/-- Error taxonomy of spec §7 for `initialize`. -/
inductive ConfigurationError where
  | dimensionMismatch
  | invertedBounds
deriving DecidableEq

/-- The evolution-strategy handle returned by `cma.CMAEvolutionStrategy`;
the opaque adaptive distribution state is omitted, only the configuration
assembled by `initialize_optimizer` is kept. -/
structure CMAEvolutionStrategy where
  x0 : List ℚ
  sigma : ℚ
  bounds_min : List ℚ
  bounds_max : List ℚ
  maxiter : ℕ
  popsize : ℕ
  tolfun : ℚ
deriving DecidableEq

/-- Modelled from the spec: the validation performed by the external
`cma.CMAEvolutionStrategy` constructor (library code, not under `src/`),
per spec §4.1 and §7 — a `ConfigurationError` when the dimensions of the
initial guess and of the two bounds vectors mismatch, or when the bounds
are inverted componentwise (some min above its max). -/
def mkCMAEvolutionStrategy (x0 : List ℚ) (sigma : ℚ) (bmin bmax : List ℚ)
    (maxiter popsize : ℕ) (tolfun : ℚ) :
    Except ConfigurationError CMAEvolutionStrategy :=
  if x0.length = bmin.length ∧ x0.length = bmax.length then
    if (List.zip bmin bmax).all (fun p => decide (p.1 ≤ p.2)) then
      .ok { x0 := x0, sigma := sigma, bounds_min := bmin, bounds_max := bmax,
            maxiter := maxiter, popsize := popsize, tolfun := tolfun }
    else .error .invertedBounds
  else .error .dimensionMismatch

/-- Python `initialize_optimizer(...)`: builds the evolution strategy (with
the spec-modelled validation) and, only when `has_constraints` is true, the
`ConstrainedFitnessAL` instance stored in the global `cfun` (its AL
coefficients are initialized lazily by the library: empty multipliers, unit
penalty factor, empty evaluation log). Returns the pair `(es, cfun)`. -/
def initialize_optimizer (initial_guess bounds_min bounds_max : List ℚ)
    (sigma : ℚ) (maxiter popsize : ℕ) (tolfun : ℚ) (has_constraints : Bool) :
    Except ConfigurationError (CMAEvolutionStrategy × Option ALHandler) :=
  match mkCMAEvolutionStrategy initial_guess sigma bounds_min bounds_max
      maxiter popsize tolfun with
  | .error e => .error e
  | .ok es =>
    if has_constraints then
      .ok (es, some { lambda_ := [], mu := 1, G := [] })
    else
      .ok (es, none)

/-- Closed form of the metrics computed from the batch's last record with
the AL state `(lam, mu)`. -/
def metricsOf (lam : List ℚ) (mu : ℚ) (r : EvalRecord) : CmaesMetrics :=
  { lambda_ := lam
    mu := mu
    alFitness := alMerit lam mu r.objective r.alConstraints
    alPenalty := alMerit lam mu r.objective r.alConstraints - r.objective
    hardViolation :=
      if r.alConstraints.map (fun g => max 0 g) = [] then 0
      else listMax (r.alConstraints.map (fun g => max 0 g))
    meanViolation :=
      if r.alConstraints.map (fun g => max 0 g) = [] then 0
      else (r.alConstraints.map (fun g => max 0 g)).sum
        / ((r.alConstraints.map (fun g => max 0 g)).length : ℚ)
    isFeasible := r.alConstraints.all (fun g => decide (g ≤ 0))
    constraints := r.alConstraints }

/-- A concrete constrained handler used by the witnesses below. -/
def sampleHandler : ALHandler := { lambda_ := [1], mu := 2, G := [] }

/-- A concrete constrained global state. -/
def sampleState : PyState :=
  { current_objective := none, current_constraints := [], cfun := some sampleHandler }

/-- A concrete evaluation record (violated constraint). -/
def sampleRecord : EvalRecord := { solution := [0], objective := 5, alConstraints := [3] }

/-- A concrete one-record batch. -/
def sampleBatch : List EvalRecord := [sampleRecord]

/-- The metrics `evaluate_batch` computes on `sampleBatch` from `sampleState`. -/
def sampleMetrics : CmaesMetrics :=
  { lambda_ := [1]
    mu := 2
    alFitness := 17
    alPenalty := 12
    hardViolation := 3
    meanViolation := 3
    isFeasible := false
    constraints := [3] }

/-- The global state after `evaluate_batch sampleState sampleBatch`. -/
def sampleFinalState : PyState :=
  { current_objective := some 5
    current_constraints := [3]
    cfun := some { lambda_ := [1], mu := 2, G := [[3], [3]] } }

/-- The result of `evaluate_batch sampleState sampleBatch`. -/
def sampleResult : BatchResult :=
  { fitnesses := [17], feasibilities := [false], cmaesMetrics := some sampleMetrics }

/-- Executable check that an `Except` result is an error. -/
def isError {ε α : Type} : Except ε α → Bool
  | .error _ => true
  | .ok _ => false

/-- The state after a second `evaluate_batch sampleFinalState sampleBatch`. -/
def sampleFinalState2 : PyState :=
  { current_objective := some 5
    current_constraints := [3]
    cfun := some { lambda_ := [1], mu := 2, G := [[3], [3], [3], [3]] } }

/-- A concrete unconstrained global state. -/
def sampleStateU : PyState :=
  { current_objective := none, current_constraints := [], cfun := none }

/-- The state after `evaluate_batch sampleStateU sampleBatch`. -/
def sampleFinalStateU : PyState :=
  { current_objective := some 5, current_constraints := [3], cfun := none }

/-- The result of `evaluate_batch sampleStateU sampleBatch`. -/
def sampleResultU : BatchResult :=
  { fitnesses := [5], feasibilities := [true], cmaesMetrics := none }

/-- A concrete record whose constraint components are all nonpositive. -/
def sampleRecordF : EvalRecord := { solution := [1], objective := 4, alConstraints := [-1, 0] }

/-- A concrete one-record feasible batch. -/
def sampleBatchF : List EvalRecord := [sampleRecordF]

/-- The metrics computed on `sampleBatchF` from `sampleState`. -/
def sampleMetricsF : CmaesMetrics :=
  { lambda_ := [1]
    mu := 2
    alFitness := 3
    alPenalty := -1
    hardViolation := 0
    meanViolation := 0
    isFeasible := true
    constraints := [-1, 0] }

/-- The state after `evaluate_batch sampleState sampleBatchF`. -/
def sampleFinalStateF : PyState :=
  { current_objective := some 4
    current_constraints := [-1, 0]
    cfun := some { lambda_ := [1], mu := 2, G := [[-1, 0], [-1, 0]] } }

/-- The result of `evaluate_batch sampleState sampleBatchF`. -/
def sampleResultF : BatchResult :=
  { fitnesses := [3], feasibilities := [true], cmaesMetrics := some sampleMetricsF }

/-- A batch whose solution does not come from any `ask` output. -/
def foreignBatch : List EvalRecord :=
  [{ solution := [5, 5], objective := 1, alConstraints := [-1] }]

/-- The state after `evaluate_batch sampleState foreignBatch`. -/
def foreignFinalState : PyState :=
  { current_objective := some 1
    current_constraints := [-1]
    cfun := some { lambda_ := [1], mu := 2, G := [[-1], [-1]] } }

/-- The result of `evaluate_batch sampleState foreignBatch`. -/
def foreignResult : BatchResult :=
  { fitnesses := [0]
    feasibilities := [true]
    cmaesMetrics := some
      { lambda_ := [1]
        mu := 2
        alFitness := 0
        alPenalty := -1
        hardViolation := 0
        meanViolation := 0
        isFeasible := true
        constraints := [-1] } }

/-- A concrete evolution-strategy handle. -/
def sampleES : CMAEvolutionStrategy :=
  { x0 := [0], sigma := 1, bounds_min := [0], bounds_max := [1],
    maxiter := 10, popsize := 5, tolfun := 1 }

/-- Transcript of the evaluation loop in constrained mode. -/
theorem eval_loop_constrained (evals : List EvalRecord) :
    ∀ (s : PyState) (h : ALHandler), s.cfun = some h →
    eval_loop s evals = some (
      (match evals.getLast? with
        | none => s
        | some r =>
          { s with current_objective := some r.objective,
                   current_constraints := r.alConstraints,
                   cfun := some { lambda_ := h.lambda_, mu := h.mu,
                                  G := h.G ++ evals.map (fun e => e.alConstraints) } }),
      evals.map (fun r => alMerit h.lambda_ h.mu r.objective r.alConstraints),
      evals.map (fun r => r.alConstraints.all (fun g => decide (g ≤ 0))),
      (evals.getLast?).map (fun r => r.solution)) := by
  induction evals with
  | nil =>
    intro s h hc
    simp [eval_loop]
  | cons r rest ih =>
    intro s h hc
    simp only [eval_loop]
    rw [hc]
    simp only [cfunCall, objective_wrapper, constraints_wrapper]
    rw [ih _ { lambda_ := h.lambda_, mu := h.mu, G := h.G ++ [r.alConstraints] } rfl]
    cases rest with
    | nil => simp [is_feasible]
    | cons b t =>
      obtain ⟨rl, hrl⟩ : ∃ rl, (b :: t).getLast? = some rl :=
        ⟨(b :: t).getLast (by simp), List.getLast?_eq_getLast _ _⟩
      rw [List.getLast?_cons_cons, hrl]
      simp [is_feasible, List.append_assoc]


/-- Transcript of the evaluation loop in unconstrained mode. -/
theorem eval_loop_unconstrained (evals : List EvalRecord) :
    ∀ (s : PyState), s.cfun = none →
    eval_loop s evals = some (
      (match evals.getLast? with
        | none => s
        | some r =>
          { s with current_objective := some r.objective,
                   current_constraints := r.alConstraints }),
      evals.map (fun r => r.objective),
      evals.map (fun _ => true),
      (evals.getLast?).map (fun r => r.solution)) := by
  induction evals with
  | nil =>
    intro s hc
    simp [eval_loop]
  | cons r rest ih =>
    intro s hc
    simp only [eval_loop]
    rw [hc]
    rw [ih _ rfl]
    cases rest with
    | nil => simp
    | cons b t =>
      obtain ⟨rl, hrl⟩ : ∃ rl, (b :: t).getLast? = some rl :=
        ⟨(b :: t).getLast (by simp), List.getLast?_eq_getLast _ _⟩
      rw [List.getLast?_cons_cons, hrl]
      simp


/-- Full transcript of `evaluate_batch` on a non-empty batch in constrained
mode. -/
theorem evaluate_batch_constrained_spec (s : PyState) (h : ALHandler)
    (evals : List EvalRecord) (hc : s.cfun = some h) (hne : evals ≠ []) :
    evaluate_batch s evals = some (
      { current_objective := some (evals.getLast hne).objective
        current_constraints := (evals.getLast hne).alConstraints
        cfun := some
          { lambda_ := h.lambda_
            mu := h.mu
            G := (h.G ++ evals.map (fun e => e.alConstraints))
              ++ [(evals.getLast hne).alConstraints] } },
      { fitnesses := evals.map (fun r => alMerit h.lambda_ h.mu r.objective r.alConstraints)
        feasibilities := evals.map (fun r => r.alConstraints.all (fun g => decide (g ≤ 0)))
        cmaesMetrics := some (metricsOf h.lambda_ h.mu (evals.getLast hne)) }) := by
  have hrl : evals.getLast? = some (evals.getLast hne) :=
    List.getLast?_eq_getLast _ _
  have hloop := eval_loop_constrained evals s h hc
  rw [hrl] at hloop
  unfold evaluate_batch
  rw [hloop]
  have hGlast : ((h.G ++ evals.map (fun e => e.alConstraints))).getLast?
      = some ((evals.getLast hne).alConstraints) := by
    rw [List.getLast?_append, List.getLast?_map, hrl]
    rfl
  simp only [Option.map_some']
  simp only [get_cmaes_metrics, cfunCall, objective_wrapper, constraints_wrapper]
  rw [hGlast]
  simp [metricsOf]


/-- An empty batch is a complete no-op on the global state. -/
theorem evaluate_batch_nil (s : PyState) :
    evaluate_batch s []
      = some (s, { fitnesses := [], feasibilities := [], cmaesMetrics := none }) := by
  cases hcf : s.cfun with
  | none => simp [evaluate_batch, eval_loop, hcf]
  | some h => simp [evaluate_batch, eval_loop, hcf]

/-- Full transcript of `evaluate_batch` in unconstrained mode. -/
theorem evaluate_batch_unconstrained_spec (s : PyState) (hc : s.cfun = none)
    (evals : List EvalRecord) :
    evaluate_batch s evals = some (
      (match evals.getLast? with
        | none => s
        | some r =>
          { s with current_objective := some r.objective,
                   current_constraints := r.alConstraints }),
      { fitnesses := evals.map (fun r => r.objective)
        feasibilities := evals.map (fun _ => true)
        cmaesMetrics := none }) := by
  have hloop := eval_loop_unconstrained evals s hc
  unfold evaluate_batch
  rw [hloop]
  cases hev : evals.getLast? with
  | none => simp
  | some r => simp [hc]


theorem sampleBatch_ne : sampleBatch ≠ [] := by simp [sampleBatch]

theorem sampleBatchF_len : 0 < sampleBatchF.length := by simp [sampleBatchF]

theorem sample_batch_eval :
    evaluate_batch sampleState sampleBatch = some (sampleFinalState, sampleResult) := by
  norm_num [evaluate_batch, eval_loop, cfunCall, objective_wrapper, constraints_wrapper,
    get_cmaes_metrics, is_feasible, alMerit, listMax, sampleState, sampleHandler,
    sampleBatch, sampleRecord, sampleFinalState, sampleResult, sampleMetrics]

theorem sample_batch_eval2 :
    evaluate_batch sampleFinalState sampleBatch = some (sampleFinalState2, sampleResult) := by
  norm_num [evaluate_batch, eval_loop, cfunCall, objective_wrapper, constraints_wrapper,
    get_cmaes_metrics, is_feasible, alMerit, listMax, sampleFinalState, sampleFinalState2,
    sampleBatch, sampleRecord, sampleResult, sampleMetrics]

theorem sample_batch_evalU :
    evaluate_batch sampleStateU sampleBatch = some (sampleFinalStateU, sampleResultU) := by
  norm_num [evaluate_batch, eval_loop, sampleStateU, sampleBatch, sampleRecord,
    sampleFinalStateU, sampleResultU]

theorem sample_batch_evalF :
    evaluate_batch sampleState sampleBatchF = some (sampleFinalStateF, sampleResultF) := by
  norm_num [evaluate_batch, eval_loop, cfunCall, objective_wrapper, constraints_wrapper,
    get_cmaes_metrics, is_feasible, alMerit, listMax, sampleState, sampleHandler,
    sampleBatchF, sampleRecordF, sampleFinalStateF, sampleResultF, sampleMetricsF]

theorem sample_foreign_eval :
    evaluate_batch sampleState foreignBatch = some (foreignFinalState, foreignResult) := by
  norm_num [evaluate_batch, eval_loop, cfunCall, objective_wrapper, constraints_wrapper,
    get_cmaes_metrics, is_feasible, alMerit, listMax, sampleState, sampleHandler,
    foreignBatch, foreignFinalState, foreignResult]

theorem sample_init_eval :
    initialize_optimizer [0] [0] [1] 1 10 5 1 false = .ok (sampleES, none) := by
  norm_num [initialize_optimizer, mkCMAEvolutionStrategy, sampleES]


/-- C1: in constrained mode (handler instantiated) the scalar fitness returned
for every record of an `evaluate_batch` call equals
`objective + Σ_i [ multiplier_i · g_i + 0.5 · penaltyFactor · max(0, g_i)² ]`
— the function `alMerit` — evaluated at the handler's current AL state. -/
theorem al_scalar_fitness_formula (s : PyState) (h : ALHandler)
    (evals : List EvalRecord) (s' : PyState) (res : BatchResult)
    (hc : s.cfun = some h)
    (hb : evaluate_batch s evals = some (s', res)) :
    res.fitnesses
      = evals.map (fun r => alMerit h.lambda_ h.mu r.objective r.alConstraints) := by
  cases evals with
  | nil =>
    rw [evaluate_batch_nil] at hb
    simp only [Option.some.injEq, Prod.mk.injEq] at hb
    rw [← hb.2]
    rfl
  | cons r rest =>
    rw [evaluate_batch_constrained_spec s h _ hc (by simp)] at hb
    simp only [Option.some.injEq, Prod.mk.injEq] at hb
    rw [← hb.2]

theorem al_scalar_fitness_formula_witness :
    sampleResult.fitnesses
      = sampleBatch.map
          (fun r => alMerit sampleHandler.lambda_ sampleHandler.mu r.objective r.alConstraints) :=
  al_scalar_fitness_formula sampleState sampleHandler sampleBatch sampleFinalState
    sampleResult rfl sample_batch_eval

/-- C2 counterexample: on a non-empty constrained batch whose only (hence
best) violation is 3, `evaluate_batch` leaves the multipliers and the penalty
factor exactly as they were, whereas one `updateMultipliers` application at
that violation would change the multiplier from 1 to 7 — so the AL state is
not mutated via `updateMultipliers` during `evaluate_batch` at all. -/
theorem evaluate_batch_no_al_update_cex :
    (evaluate_batch sampleState sampleBatch).map
        (fun p => p.1.cfun.map (fun hh => (hh.lambda_, hh.mu)))
      = some (some ([1], 2))
    ∧ update_multipliers sampleHandler [3] = { lambda_ := [7], mu := 2, G := [] }
    ∧ ([(1 : ℚ)] : List ℚ) ≠ [7] := by
  refine ⟨?_, ?_, ?_⟩
  · rw [sample_batch_eval]; rfl
  · norm_num [update_multipliers, sampleHandler]
  · norm_num

/-- C2 amended: `evaluate_batch` itself never mutates the AL state — the
multipliers and the penalty factor after the call are those before it for
every batch; the once-per-generation coefficient update instead happens in
`tell_results` (the `cfun.update(es)` call), exactly once per call in
constrained mode. -/
theorem evaluate_batch_preserves_al_state (s : PyState) (evals : List EvalRecord)
    (s' : PyState) (res : BatchResult)
    (hb : evaluate_batch s evals = some (s', res)) :
    s'.cfun.map (fun hh => (hh.lambda_, hh.mu))
      = s.cfun.map (fun hh => (hh.lambda_, hh.mu))
    ∧ (fun (hh : ALHandler) (g : List ℚ) => (tell_results (some hh) g).1)
      = (fun hh g => some (update_multipliers hh g)) := by
  refine ⟨?_, rfl⟩
  cases evals with
  | nil =>
    rw [evaluate_batch_nil] at hb
    simp only [Option.some.injEq, Prod.mk.injEq] at hb
    rw [← hb.1]
  | cons r rest =>
    cases hcf : s.cfun with
    | none =>
      rw [evaluate_batch_unconstrained_spec s hcf] at hb
      obtain ⟨rl, hrl⟩ : ∃ rl, (r :: rest).getLast? = some rl :=
        ⟨(r :: rest).getLast (by simp), List.getLast?_eq_getLast _ _⟩
      rw [hrl] at hb
      simp only [Option.some.injEq, Prod.mk.injEq] at hb
      obtain ⟨hA, hB⟩ := hb
      subst hA
      simp [hcf]
    | some h =>
      rw [evaluate_batch_constrained_spec s h _ hcf (by simp)] at hb
      simp only [Option.some.injEq, Prod.mk.injEq] at hb
      obtain ⟨hA, hB⟩ := hb
      subst hA
      simp

theorem evaluate_batch_preserves_al_state_witness :
    sampleFinalState.cfun.map (fun hh => (hh.lambda_, hh.mu))
      = sampleState.cfun.map (fun hh => (hh.lambda_, hh.mu))
    ∧ (fun (hh : ALHandler) (g : List ℚ) => (tell_results (some hh) g).1)
      = (fun hh g => some (update_multipliers hh g)) :=
  evaluate_batch_preserves_al_state sampleState sampleBatch sampleFinalState
    sampleResult sample_batch_eval

/-- C3 counterexample: with `[[0, 0]]` as the population most recently
returned by `ask`, calling `evaluate_batch` with the foreign population
`[[5, 5]]` does not fail with any error — it completes normally and mutates
the stored objective global, contradicting the claimed
`ProtocolMisuseError` with unchanged state. -/
theorem evaluate_batch_no_protocol_check_cex :
    foreignBatch.map (fun r => r.solution) ≠ [[(0 : ℚ), 0]]
    ∧ (evaluate_batch sampleState foreignBatch).isSome = true
    ∧ (evaluate_batch sampleState foreignBatch).map (fun p => p.1.current_objective)
      = some (some 1) := by
  refine ⟨?_, ?_, ?_⟩
  · norm_num [foreignBatch]
  · rw [sample_foreign_eval]; rfl
  · rw [sample_foreign_eval]; rfl

/-- C3 amended: neither `evaluate_batch` nor `tell_results` receives or
checks the population most recently returned by `ask`; no
`ProtocolMisuseError` exists, every `evaluate_batch` call completes normally
with one fitness and one feasibility per record, and `tell_results` always
returns "ok". -/
theorem evaluate_batch_accepts_any_population :
    (∀ (s : PyState) (evals : List EvalRecord),
      ∃ s' res, evaluate_batch s evals = some (s', res)
        ∧ res.fitnesses.length = evals.length
        ∧ res.feasibilities.length = evals.length)
    ∧ ∀ (c : Option ALHandler) (g : List ℚ), (tell_results c g).2 = "ok" := by
  constructor
  · intro s evals
    cases hcf : s.cfun with
    | none =>
      exact ⟨_, _, evaluate_batch_unconstrained_spec s hcf evals, by simp, by simp⟩
    | some h =>
      cases evals with
      | nil => exact ⟨_, _, evaluate_batch_nil s, rfl, rfl⟩
      | cons r rest =>
        exact ⟨_, _, evaluate_batch_constrained_spec s h _ hcf (by simp), by simp, by simp⟩
  · intro c g
    cases c <;> rfl


/-- C4: initializing with `has_constraints = false` produces no handler, and
in that mode every record's returned fitness is exactly its objective — the
constraint vectors being ignored — and every record is reported feasible. -/
theorem unconstrained_fitness_identity (ig bmin bmax : List ℚ) (sig : ℚ)
    (mi ps : ℕ) (tf : ℚ) (es : CMAEvolutionStrategy) (c : Option ALHandler)
    (s : PyState) (evals : List EvalRecord) (s' : PyState) (res : BatchResult)
    (hinit : initialize_optimizer ig bmin bmax sig mi ps tf false = .ok (es, c))
    (hc : s.cfun = c)
    (hb : evaluate_batch s evals = some (s', res)) :
    c = none
    ∧ res.fitnesses = evals.map (fun r => r.objective)
    ∧ res.feasibilities = evals.map (fun _ => true) := by
  have hcnone : c = none := by
    unfold initialize_optimizer at hinit
    cases hmk : mkCMAEvolutionStrategy ig sig bmin bmax mi ps tf with
    | error e => rw [hmk] at hinit; exact absurd hinit (by simp)
    | ok es2 =>
      rw [hmk] at hinit
      simp only [Bool.false_eq_true, if_false, Except.ok.injEq, Prod.mk.injEq] at hinit
      exact hinit.2.symm
  subst hcnone
  rw [evaluate_batch_unconstrained_spec s hc] at hb
  have hres : res
      = { fitnesses := evals.map (fun r => r.objective)
          feasibilities := evals.map (fun _ => true)
          cmaesMetrics := none } := by
    cases hev : evals.getLast? with
    | none =>
      rw [hev] at hb
      simp only [Option.some.injEq, Prod.mk.injEq] at hb
      exact hb.2.symm
    | some rl =>
      rw [hev] at hb
      simp only [Option.some.injEq, Prod.mk.injEq] at hb
      exact hb.2.symm
  rw [hres]
  exact ⟨rfl, rfl, rfl⟩

theorem unconstrained_fitness_identity_witness :
    (none : Option ALHandler) = none
    ∧ sampleResultU.fitnesses = sampleBatch.map (fun r => r.objective)
    ∧ sampleResultU.feasibilities = sampleBatch.map (fun _ => true) :=
  unconstrained_fitness_identity [0] [0] [1] 1 10 5 1 sampleES none sampleStateU
    sampleBatch sampleFinalStateU sampleResultU sample_init_eval rfl sample_batch_evalU

/-- C5: a record all of whose constraint components are ≤ 0 is reported
feasible by `evaluate_batch`; a record with at least one component > 0 is
reported infeasible. -/
theorem feasibility_iff_nonpositive_constraints (s : PyState) (h : ALHandler)
    (evals : List EvalRecord) (s' : PyState) (res : BatchResult)
    (hc : s.cfun = some h) (hb : evaluate_batch s evals = some (s', res))
    (i : ℕ) (hi : i < evals.length) :
    ((∀ g ∈ (evals.get ⟨i, hi⟩).alConstraints, g ≤ 0) →
      res.feasibilities.get? i = some true)
    ∧ ((∃ g ∈ (evals.get ⟨i, hi⟩).alConstraints, 0 < g) →
      res.feasibilities.get? i = some false) := by
  have hfeas : res.feasibilities
      = evals.map (fun r => r.alConstraints.all (fun g => decide (g ≤ 0))) := by
    cases evals with
    | nil => exact absurd hi (by simp)
    | cons r rest =>
      rw [evaluate_batch_constrained_spec s h _ hc (by simp)] at hb
      simp only [Option.some.injEq, Prod.mk.injEq] at hb
      rw [← hb.2]
  have hget : res.feasibilities.get? i
      = some ((evals.get ⟨i, hi⟩).alConstraints.all (fun g => decide (g ≤ 0))) := by
    rw [hfeas, List.get?_map, List.get?_eq_get hi]
    rfl
  constructor
  · intro hall
    rw [hget]
    have : (evals.get ⟨i, hi⟩).alConstraints.all (fun g => decide (g ≤ 0)) = true := by
      rw [List.all_eq_true]
      intro g hg
      exact decide_eq_true (hall g hg)
    rw [this]
  · rintro ⟨g, hg, hgpos⟩
    rw [hget]
    have : (evals.get ⟨i, hi⟩).alConstraints.all (fun g => decide (g ≤ 0)) = false := by
      by_contra hcon
      rw [Bool.not_eq_false, List.all_eq_true] at hcon
      have := hcon g hg
      rw [decide_eq_true_eq] at this
      exact absurd hgpos (not_lt.mpr this)
    rw [this]

theorem feasibility_iff_nonpositive_constraints_witness :
    ((∀ g ∈ (sampleBatchF.get ⟨0, sampleBatchF_len⟩).alConstraints, g ≤ 0) →
      sampleResultF.feasibilities.get? 0 = some true)
    ∧ ((∃ g ∈ (sampleBatchF.get ⟨0, sampleBatchF_len⟩).alConstraints, 0 < g) →
      sampleResultF.feasibilities.get? 0 = some false) :=
  feasibility_iff_nonpositive_constraints sampleState sampleHandler sampleBatchF
    sampleFinalStateF sampleResultF rfl sample_batch_evalF 0 sampleBatchF_len

/-- C6: an `evaluate_batch` call with an empty records list returns empty
fitnesses and feasibilities and null diagnostics, and leaves the whole
global state — the AL handler state and the stored current-evaluation
values — exactly unchanged. -/
theorem empty_batch_noop (s : PyState) :
    evaluate_batch s []
      = some (s, { fitnesses := [], feasibilities := [], cmaesMetrics := none }) :=
  evaluate_batch_nil s

/-- C7: on a handle whose AL state has not changed between two calls on the
identical batch, the diagnostics' alFitness/alPenalty values coincide, and
within one call they are the exact fresh recomputation of the scalar AL
fitness on the batch's last record. -/
theorem diagnostics_idempotent_exact (s : PyState) (h : ALHandler)
    (evals : List EvalRecord) (s1 : PyState) (r1 : BatchResult)
    (s2 : PyState) (r2 : BatchResult)
    (hc : s.cfun = some h) (hne : evals ≠ [])
    (he1 : evaluate_batch s evals = some (s1, r1))
    (he2 : evaluate_batch s1 evals = some (s2, r2)) :
    r1.cmaesMetrics.map (fun m => (m.alFitness, m.alPenalty))
      = r2.cmaesMetrics.map (fun m => (m.alFitness, m.alPenalty))
    ∧ r1.cmaesMetrics.map (fun m => m.alFitness)
      = some (alMerit h.lambda_ h.mu
          (evals.getLast hne).objective (evals.getLast hne).alConstraints)
    ∧ r1.cmaesMetrics.map (fun m => m.alPenalty)
      = some (alMerit h.lambda_ h.mu
          (evals.getLast hne).objective (evals.getLast hne).alConstraints
        - (evals.getLast hne).objective) := by
  rw [evaluate_batch_constrained_spec s h evals hc hne] at he1
  simp only [Option.some.injEq, Prod.mk.injEq] at he1
  obtain ⟨hs1, hr1⟩ := he1
  subst hs1
  rw [evaluate_batch_constrained_spec _ _ evals rfl hne] at he2
  simp only [Option.some.injEq, Prod.mk.injEq] at he2
  obtain ⟨hs2, hr2⟩ := he2
  subst hr1
  subst hr2
  exact ⟨rfl, rfl, rfl⟩

theorem diagnostics_idempotent_exact_witness :
    sampleResult.cmaesMetrics.map (fun m => (m.alFitness, m.alPenalty))
      = sampleResult.cmaesMetrics.map (fun m => (m.alFitness, m.alPenalty))
    ∧ sampleResult.cmaesMetrics.map (fun m => m.alFitness)
      = some (alMerit sampleHandler.lambda_ sampleHandler.mu
          (sampleBatch.getLast sampleBatch_ne).objective
          (sampleBatch.getLast sampleBatch_ne).alConstraints)
    ∧ sampleResult.cmaesMetrics.map (fun m => m.alPenalty)
      = some (alMerit sampleHandler.lambda_ sampleHandler.mu
          (sampleBatch.getLast sampleBatch_ne).objective
          (sampleBatch.getLast sampleBatch_ne).alConstraints
        - (sampleBatch.getLast sampleBatch_ne).objective) :=
  diagnostics_idempotent_exact sampleState sampleHandler sampleBatch sampleFinalState
    sampleResult sampleFinalState2 sampleResult rfl sampleBatch_ne
    sample_batch_eval sample_batch_eval2


/-- C8: an `initialize` call whose initial-guess and bounds dimensions
mismatch, or whose bounds are inverted componentwise, fails with a
`ConfigurationError` and produces no optimizer handle. -/
theorem initialize_rejects_bad_config (ig bmin bmax : List ℚ) (sig : ℚ)
    (mi ps : ℕ) (tf : ℚ) (hasC : Bool)
    (hbad : ig.length ≠ bmin.length ∨ ig.length ≠ bmax.length
      ∨ ∃ p ∈ List.zip bmin bmax, p.2 < p.1) :
    isError (initialize_optimizer ig bmin bmax sig mi ps tf hasC) = true := by
  have hmk : ∃ e, mkCMAEvolutionStrategy ig sig bmin bmax mi ps tf = .error e := by
    unfold mkCMAEvolutionStrategy
    by_cases hlen : ig.length = bmin.length ∧ ig.length = bmax.length
    · have hinv : ∃ p ∈ List.zip bmin bmax, p.2 < p.1 := by
        rcases hbad with h1 | h2 | h3
        · exact absurd hlen.1 h1
        · exact absurd hlen.2 h2
        · exact h3
      have hall : ((List.zip bmin bmax).all (fun p => decide (p.1 ≤ p.2))) = false := by
        obtain ⟨p, hp, hlt⟩ := hinv
        by_contra hcon
        rw [Bool.not_eq_false, List.all_eq_true] at hcon
        have := hcon p hp
        rw [decide_eq_true_eq] at this
        exact absurd hlt (not_lt.mpr this)
      rw [if_pos hlen, hall]
      exact ⟨.invertedBounds, by simp⟩
    · rw [if_neg hlen]
      exact ⟨.dimensionMismatch, rfl⟩
  obtain ⟨e, he⟩ := hmk
  unfold initialize_optimizer
  rw [he]
  rfl

theorem initialize_rejects_bad_config_witness :
    ([(0 : ℚ)] : List ℚ).length ≠ ([0, 0] : List ℚ).length
    ∧ isError (initialize_optimizer [0] [0, 0] [1] 1 10 5 1 true) = true :=
  ⟨by norm_num,
    initialize_rejects_bad_config [0] [0, 0] [1] 1 10 5 1 true (Or.inl (by norm_num))⟩

/-- C9: after a non-empty `evaluate_batch` call the globals hold exactly the
last record's objective and constraint vector, and the callbacks installed
at initialization ignore their solution argument, returning whatever the
globals hold at call time. -/
theorem globals_smuggle_last_record (s : PyState) (evals : List EvalRecord)
    (s' : PyState) (res : BatchResult) (hne : evals ≠ [])
    (hb : evaluate_batch s evals = some (s', res)) :
    s'.current_objective = some (evals.getLast hne).objective
    ∧ s'.current_constraints = (evals.getLast hne).alConstraints
    ∧ objective_wrapper = (fun (t : PyState) (x : List ℚ) => t.current_objective)
    ∧ constraints_wrapper = (fun (t : PyState) (x : List ℚ) => t.current_constraints) := by
  refine ⟨?_, ?_, rfl, rfl⟩ <;>
  · cases hcf : s.cfun with
    | none =>
      rw [evaluate_batch_unconstrained_spec s hcf] at hb
      rw [List.getLast?_eq_getLast evals hne] at hb
      simp only [Option.some.injEq, Prod.mk.injEq] at hb
      rw [← hb.1]
    | some h =>
      rw [evaluate_batch_constrained_spec s h evals hcf hne] at hb
      simp only [Option.some.injEq, Prod.mk.injEq] at hb
      rw [← hb.1]

theorem globals_smuggle_last_record_witness :
    sampleFinalState.current_objective = some (sampleBatch.getLast sampleBatch_ne).objective
    ∧ sampleFinalState.current_constraints = (sampleBatch.getLast sampleBatch_ne).alConstraints
    ∧ objective_wrapper = (fun (t : PyState) (x : List ℚ) => t.current_objective)
    ∧ constraints_wrapper = (fun (t : PyState) (x : List ℚ) => t.current_constraints) :=
  globals_smuggle_last_record sampleState sampleBatch sampleFinalState sampleResult
    sampleBatch_ne sample_batch_eval

/-- C10: in unconstrained mode `evaluate_batch` returns null diagnostics even
on a non-empty batch, and `get_cmaes_metrics` answers the JSON null whenever
the handler's constraint-evaluation log is empty. -/
theorem null_diagnostics_cases (s : PyState) (evals : List EvalRecord)
    (s' : PyState) (res : BatchResult)
    (t : PyState) (h : ALHandler) (sol : List ℚ)
    (hc : s.cfun = none) (hb : evaluate_batch s evals = some (s', res))
    (hG : h.G = []) :
    res.cmaesMetrics = none ∧ get_cmaes_metrics t h sol = some none := by
  constructor
  · rw [evaluate_batch_unconstrained_spec s hc] at hb
    cases hev : evals.getLast? with
    | none =>
      rw [hev] at hb
      simp only [Option.some.injEq, Prod.mk.injEq] at hb
      rw [← hb.2]
    | some rl =>
      rw [hev] at hb
      simp only [Option.some.injEq, Prod.mk.injEq] at hb
      rw [← hb.2]
  · unfold get_cmaes_metrics
    rw [hG]
    rfl

theorem null_diagnostics_cases_witness :
    sampleResultU.cmaesMetrics = none
    ∧ get_cmaes_metrics sampleState sampleHandler [0] = some none :=
  null_diagnostics_cases sampleStateU sampleBatch sampleFinalStateU sampleResultU
    sampleState sampleHandler [0] rfl sample_batch_evalU rfl


end GeogebraOptimizer
